import Mathlib

/-!
Verification development for the osm-git replay engine.

The definitions below are a shallow embedding of the Rust sources
`src/osm/osm_data.rs`, `src/osm/changesets.rs` and `src/git/mod.rs`:

* XML input is modelled at the element level (`XmlElement`): an element has a
  name, a list of decoded attribute key/value pairs, and a list of child
  elements.  The pull-parser's event plumbing (buffers, `expand_empty_elements`,
  whitespace `Text` events) is below this abstraction; the per-element parsing
  functions consume one element tree exactly as the Rust code consumes the
  event span of one element.
* Rust `u64` is modelled as `Nat` (the inputs in scope never overflow),
  `f64` as an exact `Decimal` together with a parser for the decimal literals the
  repository's data uses (no exponent/inf/nan forms occur), and `String` as
  Lean `String`.
* Rust panics (`unwrap` / `expect` on missing or unparsable mandatory
  attributes) are modelled as `Except.error`; they abort the whole
  computation, exactly as an uncaught panic aborts the process.  The
  *catchable* `Result` errors of the Rust code all stem from malformed raw
  XML or filesystem failures, which have no representation at this
  abstraction level, so the `Err`-log-and-skip arms of the Rust `match`es
  are unreachable in the model (noted at each site).
* `BTreeMap` is modelled as a key-sorted association list,
  `HashMap` as an insertion-ordered association list with replacement
  (Rust's `HashMap` iteration order is unspecified; insertion order is one
  admissible order and is what the model uses).
* The filesystem object store (`<id>.yaml` files in the repository working
  directory) is modelled as a map from id to the object whose serialization
  the file holds.  The `id` and `changeset` fields are `#[serde(skip)]` in
  the source, so they are not part of the file contents; they are carried in
  the model value but never observed through a file read in a way that could
  distinguish this.
-/

namespace OsmGit

/-- An XML element: name, decoded attributes (in document order), children. -/
structure XmlElement where
  name : String
  attrs : List (String × String)
  children : List XmlElement
deriving Repr

/-- Last value of attribute `k`, mirroring both the `HashMap`/`BTreeMap`
`collect()` of the attribute iterator (later duplicates overwrite) and the
`for`-loop assignment scans (`b"k" => key = ...`), which also keep the last
occurrence. -/
def lastAttr (attrs : List (String × String)) (k : String) : Option String :=
  (attrs.filter (fun kv => kv.fst = k)).getLast?.map (fun kv => kv.snd)

/-- Attribute value with the `Cow::Borrowed("")` default used in the
child-element scans of the source. -/
def attrD (attrs : List (String × String)) (k : String) : String :=
  (lastAttr attrs k).getD ""

/-- One ASCII whitespace character (the only whitespace occurring in the
inputs in scope, over which Rust's Unicode `str::trim` agrees). -/
def isWsChar (c : Char) : Bool :=
  c = ' ' ∨ c = '\t' ∨ c = '\n' ∨ c = '\r'

/-- Models Rust `str::trim` (restricted to the ASCII whitespace of the
inputs in scope). -/
def trimStr (s : String) : String :=
  ⟨((s.data.dropWhile isWsChar).reverse.dropWhile isWsChar).reverse⟩

/-- Models Rust `str::is_empty`. -/
def strIsEmpty (s : String) : Bool :=
  s.data.isEmpty

/-- Models Rust `str::parse::<bool>`: exactly "true" or "false". -/
def parseBool? (s : String) : Option Bool :=
  if s = "true" then some true else if s = "false" then some false else none

/-- Numeric value of a digit list, `none` unless nonempty and all digits. -/
def digitsToNat? (cs : List Char) : Option Nat :=
  if cs ≠ [] ∧ cs.all Char.isDigit then
    some (cs.foldl (fun a c => a * 10 + (c.toNat - 48)) 0)
  else
    none

/-- Models Rust `str::parse::<u64>` on the plain decimal inputs in scope. -/
def parseU64? (s : String) : Option Nat :=
  digitsToNat? s.data

/-- An exact decimal number `mantissa / 10 ^ exponent`.  The parser below
keeps the representation canonical (trailing fractional zeros stripped, so
zero is always `⟨0, 0⟩`), hence structural equality coincides with numeric
equality, which is what `f64` equality gives on the plain decimal
coordinate literals in scope. -/
structure Decimal where
  mantissa : Int
  exponent : Nat
deriving Repr, DecidableEq

/-- Drop the trailing `'0'` characters of a fractional digit list. -/
def stripTrailingZeros (frac : List Char) : List Char :=
  (frac.reverse.dropWhile (fun c => c = '0')).reverse

/-- Models Rust `str::parse::<f64>` on plain decimal literals
(optional sign, digits, optional fractional part), which covers every
coordinate occurring in the repository's inputs; exponent/inf/nan forms are
not modelled.  The value is an exact `Decimal`, which agrees with `f64`
equality on all inputs in scope. -/
def parseF64? (s : String) : Option Decimal :=
  let cs := s.data
  let signAndRest : Bool × List Char :=
    match cs with
    | '-' :: rest => (true, rest)
    | '+' :: rest => (false, rest)
    | _ => (false, cs)
  let neg := signAndRest.fst
  let body := signAndRest.snd
  let intPart := body.takeWhile (fun c => c ≠ '.')
  let rest := body.dropWhile (fun c => c ≠ '.')
  match digitsToNat? intPart with
  | none => none
  | some i =>
    match rest with
    | [] => some ⟨if neg then -(i : Int) else (i : Int), 0⟩
    | '.' :: frac =>
      if frac.all Char.isDigit then
        let fracStripped := stripTrailingZeros frac
        let m : Nat := fracStripped.foldl (fun a c => a * 10 + (c.toNat - 48)) i
        some ⟨if neg then -(m : Int) else (m : Int), fracStripped.length⟩
      else none
    | _ => none

/-- `BTreeMap<String, String>` insert: key-sorted association list with
replacement. -/
def tagsInsert : List (String × String) → String → String → List (String × String)
  | [], k, v => [(k, v)]
  | (k', v') :: rest, k, v =>
    if k = k' then (k', v) :: rest
    else if k < k' then (k, v) :: (k', v') :: rest
    else (k', v') :: tagsInsert rest k v

/-- `HashMap<String, String>` insert, modelled as insertion-ordered
association list with in-place replacement (iteration order of the Rust
`HashMap` is unspecified; this is the order the model fixes). -/
def hmInsert : List (String × String) → String → String → List (String × String)
  | [], k, v => [(k, v)]
  | (k', v') :: rest, k, v =>
    if k = k' then (k', v) :: rest
    else (k', v') :: hmInsert rest k v

/-- `HashMap::get`. -/
def hmLookup (m : List (String × String)) (k : String) : Option String :=
  (m.find? (fun kv => kv.fst = k)).map (fun kv => kv.snd)

/-- The constant `FILE_VERSION` of `osm_data.rs`. -/
def FILE_VERSION : String := "0.1.0"

/-- `struct Node` of `osm_data.rs` (the `#[serde(skip)]` fields `id` and
`changeset` are carried but not serialized to the object-store file). -/
structure Node where
  id : Nat
  changeset : Nat
  file_generator : Option String
  file_version : String
  legacy_object_version : Option String
  lat : Decimal
  lon : Decimal
  tags : List (String × String)
deriving Repr, DecidableEq

/-- Mandatory attribute read `attributes.get(k).unwrap().parse().expect(msg)`:
a missing attribute or a failed numeric parse is a Rust panic, modelled as
`Except.error`. -/
def requireNat (attrs : List (String × String)) (k msg : String) : Except String Nat :=
  match lastAttr attrs k with
  | none => .error ("Option::unwrap on None: " ++ k)
  | some s =>
    match parseU64? s with
    | none => .error msg
    | some n => .ok n

/-- As `requireNat` but for the `f64` coordinate attributes. -/
def requireF64 (attrs : List (String × String)) (k msg : String) : Except String Decimal :=
  match lastAttr attrs k with
  | none => .error ("Option::unwrap on None: " ++ k)
  | some s =>
    match parseF64? s with
    | none => .error msg
    | some q => .ok q

/-- `Node::new_from_element`: reads the mandatory `id`, `changeset`, `lat`,
`lon` attributes (panicking on absence or parse failure), the optional
`generator`/`version` attributes, then folds over the child elements
inserting each `<tag k v>` into the `BTreeMap` of tags (other child names
are logged and skipped). -/
def Node.new_from_element (e : XmlElement) : Except String Node := do
  let attrs := e.attrs
  let id ← requireNat attrs "id" "Unable to parse node id"
  let changeset ← requireNat attrs "changeset" "Unable to parse node changeset"
  let lat ← requireF64 attrs "lat" "Unable to parse node lat"
  let lon ← requireF64 attrs "lon" "Unable to parse node lon"
  let base : Node :=
    { id := id
      changeset := changeset
      file_generator := lastAttr attrs "generator"
      file_version := FILE_VERSION
      legacy_object_version := lastAttr attrs "version"
      lat := lat
      lon := lon
      tags := [] }
  .ok (e.children.foldl
    (fun n c =>
      if c.name = "tag" then
        { n with tags := tagsInsert n.tags (attrD c.attrs "k") (attrD c.attrs "v") }
      else n)
    base)

/-- `struct Way` of `osm_data.rs`. -/
structure Way where
  id : Nat
  changeset : Nat
  file_generator : Option String
  file_version : String
  legacy_object_version : Option String
  tags : List (String × String)
  nodes : List Nat
deriving Repr, DecidableEq

/-- `<nd ref>` read: `ref` defaults to `""` and is then
`parse::<u64>().expect(...)`, so a missing or unparsable ref is a panic. -/
def parseNdRef (c : XmlElement) : Except String Nat :=
  match parseU64? (attrD c.attrs "ref") with
  | none => .error "Unable to parse way node ref"
  | some n => .ok n

/-- `Way::new_from_element`: mandatory `id`/`changeset`, then the child fold
collecting `<tag>` into the tag map and `<nd ref>` into the ordered node
list. -/
def Way.new_from_element (e : XmlElement) : Except String Way := do
  let attrs := e.attrs
  let id ← requireNat attrs "id" "Unable to parse way id"
  let changeset ← requireNat attrs "changeset" "Unable to parse way changeset"
  let base : Way :=
    { id := id
      changeset := changeset
      file_generator := lastAttr attrs "generator"
      file_version := FILE_VERSION
      legacy_object_version := lastAttr attrs "version"
      tags := []
      nodes := [] }
  e.children.foldlM
    (fun w c =>
      if c.name = "tag" then
        .ok { w with tags := tagsInsert w.tags (attrD c.attrs "k") (attrD c.attrs "v") }
      else if c.name = "nd" then do
        let r ← parseNdRef c
        .ok { w with nodes := w.nodes ++ [r] }
      else .ok w)
    base

/-- `struct RelationMember` of `osm_data.rs`. -/
structure RelationMember where
  type : String
  ref_id : Nat
  role : Option String
deriving Repr, DecidableEq

/-- `struct Relation` of `osm_data.rs`. -/
structure Relation where
  id : Nat
  changeset : Nat
  file_generator : Option String
  file_version : String
  legacy_object_version : Option String
  tags : List (String × String)
  member : List RelationMember
deriving Repr, DecidableEq

/-- `<member type ref role>` read: `ref` panics when unparsable, the empty
`role` normalizes to `None`. -/
def parseMember (c : XmlElement) : Except String RelationMember :=
  match parseU64? (attrD c.attrs "ref") with
  | none => .error "Unable to parse relation member ref"
  | some r =>
    let role := attrD c.attrs "role"
    .ok { type := attrD c.attrs "type"
          ref_id := r
          role := if strIsEmpty role then none else some role }

/-- `Relation::new_from_element`. -/
def Relation.new_from_element (e : XmlElement) : Except String Relation := do
  let attrs := e.attrs
  let id ← requireNat attrs "id" "Unable to parse way id"
  let changeset ← requireNat attrs "changeset" "Unable to parse way changeset"
  let base : Relation :=
    { id := id
      changeset := changeset
      file_generator := lastAttr attrs "generator"
      file_version := FILE_VERSION
      legacy_object_version := lastAttr attrs "version"
      tags := []
      member := [] }
  e.children.foldlM
    (fun rel c =>
      if c.name = "tag" then
        .ok { rel with tags := tagsInsert rel.tags (attrD c.attrs "k") (attrD c.attrs "v") }
      else if c.name = "member" then do
        let m ← parseMember c
        .ok { rel with member := rel.member ++ [m] }
      else .ok rel)
    base

/-- `enum OSMObject` of `osm_data.rs`. -/
inductive OSMObject where
  | Node : Node → OSMObject
  | Way : Way → OSMObject
  | Relation : Relation → OSMObject
deriving Repr, DecidableEq

/-- The object's id (used as the `<id>.yaml` file name). -/
def objId : OSMObject → Nat
  | .Node n => n.id
  | .Way w => w.id
  | .Relation r => r.id

/-- The changeset attribute of the object. -/
def objChangeset : OSMObject → Nat
  | .Node n => n.changeset
  | .Way w => w.changeset
  | .Relation r => r.changeset

/-- `format!("{}.yaml", id)`. -/
def objFileName (o : OSMObject) : String :=
  toString (objId o) ++ ".yaml"

/-- The flat-directory object store: id (file name) to the object whose
serialization the `<id>.yaml` file holds, as a key-sorted association
list. -/
def Store := List (Nat × OSMObject)

/-- Write (create or overwrite) the file of id `k`. -/
def storeInsert : List (Nat × OSMObject) → Nat → OSMObject → List (Nat × OSMObject)
  | [], k, v => [(k, v)]
  | (k', v') :: rest, k, v =>
    if k = k' then (k', v) :: rest
    else if k < k' then (k, v) :: (k', v') :: rest
    else (k', v') :: storeInsert rest k v

/-- Read the file of id `k` (`none` when the file is absent). -/
def storeLookup : List (Nat × OSMObject) → Nat → Option OSMObject
  | [], _ => none
  | (k', v) :: rest, k => if k = k' then some v else storeLookup rest k

/-- `if object_file_path.exists() { std::fs::remove_file(...) }`: remove the
file, a no-op when absent. -/
def storeErase : List (Nat × OSMObject) → Nat → List (Nat × OSMObject)
  | [], _ => []
  | (k', v) :: rest, k => if k = k' then rest else (k', v) :: storeErase rest k

/-- `BTreeMap<u64, Vec<OSMObject>>` `entry(cid).or_insert_with(Vec::new)
.push(obj)`: key-sorted association list, pushing at the end of the
per-changeset vector. -/
def natMapInsertPush : List (Nat × List OSMObject) → Nat → OSMObject → List (Nat × List OSMObject)
  | [], k, v => [(k, [v])]
  | (k', l) :: rest, k, v =>
    if k = k' then (k', l ++ [v]) :: rest
    else if k < k' then (k, [v]) :: (k', l) :: rest
    else (k', l) :: natMapInsertPush rest k v

/-- `BTreeMap::get`. -/
def natMapLookup : List (Nat × List OSMObject) → Nat → Option (List OSMObject)
  | [], _ => none
  | (k', l) :: rest, k => if k = k' then some l else natMapLookup rest k

/-- Apply `f` to the vector stored under `k` (no change when `k` is absent):
the `get_mut(&changeset)` update of the delete branch. -/
def natMapAdjust (m : List (Nat × List OSMObject)) (k : Nat)
    (f : List OSMObject → List OSMObject) : List (Nat × List OSMObject) :=
  match m with
  | [] => []
  | (k', l) :: rest =>
    if k = k' then (k', f l) :: rest else (k', l) :: natMapAdjust rest k f

/-- Keys of the map in storage (ascending) order, `BTreeMap::keys`. -/
def natMapKeys (m : List (Nat × List OSMObject)) : List Nat :=
  m.map (fun kl => kl.fst)

/-- Remove the first element equal to `a` (whole-structure equality, the
derived `PartialEq` used by `position(|existing| *existing == object)`); the
list is unchanged when no equal element exists. -/
def removeFirst : List OSMObject → OSMObject → List OSMObject
  | [], _ => []
  | x :: rest, a => if x = a then rest else x :: removeFirst rest a

/-- The accumulated state of one `convert_objects_to_git` run over a change
file: the object store plus the two per-changeset delta maps
(`created_or_modified_objects_for_changeset` and
`deleted_objects_for_changeset`). -/
structure ReplayState where
  store : List (Nat × OSMObject)
  addmod : List (Nat × List OSMObject)
  del : List (Nat × List OSMObject)
deriving Repr, DecidableEq

/-- The empty initial state of a change-file pass. -/
def initState : ReplayState := ⟨[], [], []⟩

/-- The `create` branch, per object: `File::create` (write / overwrite) the
`<id>.yaml` file, then push the object onto the changeset's
created-or-modified vector. -/
def applyCreate (st : ReplayState) (obj : OSMObject) : ReplayState :=
  { st with
    store := storeInsert st.store (objId obj) obj
    addmod := natMapInsertPush st.addmod (objChangeset obj) obj }

/-- The field-by-field copy of the `modify` branch (`osm_data.rs:710-745`):
all fields other than `id` are taken from the delta object; when the stored
variant differs from the delta's, the `if let` does not fire and the stored
object is left as read. -/
def mergeModify : OSMObject → OSMObject → OSMObject
  | .Node f, .Node o => .Node { o with id := f.id }
  | .Way f, .Way o => .Way { o with id := f.id }
  | .Relation f, .Relation o => .Relation { o with id := f.id }
  | f, _ => f

/-- The `modify` branch file operation (`osm_data.rs:696-751`): when the file
is absent it is first created with the delta object; the file is then read
back, the merged value is computed — and discarded, because the source
serializes `object`, not `file_object`, at `osm_data.rs:751` — and the delta
object is written with truncation. -/
def upsertModify (store : List (Nat × OSMObject)) (obj : OSMObject) : List (Nat × OSMObject) :=
  let store1 :=
    if (storeLookup store (objId obj)).isNone then storeInsert store (objId obj) obj else store
  let file_object := (storeLookup store1 (objId obj)).getD obj
  let _merged := mergeModify file_object obj
  storeInsert store1 (objId obj) obj

/-- The `modify` branch, per object. -/
def applyModify (st : ReplayState) (obj : OSMObject) : ReplayState :=
  { st with
    store := upsertModify st.store obj
    addmod := natMapInsertPush st.addmod (objChangeset obj) obj }

/-- The `delete` branch, per object: remove the file (no-op when absent),
push the object onto the changeset's deleted vector, and remove from the
changeset's created-or-modified vector the first entry *equal to the whole
deleted object* (`osm_data.rs:862-874`). -/
def applyDelete (st : ReplayState) (obj : OSMObject) : ReplayState :=
  { st with
    store := storeErase st.store (objId obj)
    del := natMapInsertPush st.del (objChangeset obj) obj
    addmod := natMapAdjust st.addmod (objChangeset obj) (fun l => removeFirst l obj) }

/-- The three grouping elements of an `<osmChange>` document. -/
inductive Action where
  | create
  | modify
  | delete
deriving Repr, DecidableEq

/-- One `<create>`/`<modify>`/`<delete>` grouping with its child elements in
document order. -/
structure ChangeGroup where
  action : Action
  children : List XmlElement
deriving Repr

/-- The inner event loop of each grouping: parse each `<node|way|relation>`
child in document order into an object (a panic during any child aborts the
whole run; the catchable XML `Err`s that the source logs and skips are not
representable at this abstraction level), skipping unknown child names. -/
def collectObjects (children : List XmlElement) : Except String (List OSMObject) :=
  children.foldlM
    (fun acc c =>
      if c.name = "node" then do
        let n ← Node.new_from_element c
        .ok (acc ++ [OSMObject.Node n])
      else if c.name = "way" then do
        let w ← Way.new_from_element c
        .ok (acc ++ [OSMObject.Way w])
      else if c.name = "relation" then do
        let r ← Relation.new_from_element c
        .ok (acc ++ [OSMObject.Relation r])
      else .ok acc)
    []

/-- Dispatch of the per-object filesystem-and-bookkeeping step on the
grouping's action. -/
def applyFor : Action → ReplayState → OSMObject → ReplayState
  | .create => applyCreate
  | .modify => applyModify
  | .delete => applyDelete

/-- One grouping: first the inner loop collects all objects of the grouping,
then they are applied in input order. -/
def processGroup (st : ReplayState) (g : ChangeGroup) : Except String ReplayState := do
  let objs ← collectObjects g.children
  .ok (objs.foldl (applyFor g.action) st)

/-- The parse-and-apply phase of `convert_objects_to_git` over the groupings
of one change file, in document order, starting from an empty state. -/
def processFile (groups : List ChangeGroup) : Except String ReplayState :=
  groups.foldlM processGroup initState

/-- `changeset_list` (`osm_data.rs:887-891`): the keys of the
created-or-modified map chained with the keys of the deleted map — each
segment in ascending `BTreeMap` order, *with duplicates preserved* for a
changeset id present in both maps. -/
def changesetList (st : ReplayState) : List Nat :=
  natMapKeys st.addmod ++ natMapKeys st.del

/-- `struct Changeset` of `changesets.rs` (the `open` field is written
`«open»` because `open` is a Lean keyword; `tags` is a Rust
`HashMap<String, String>`, modelled as an insertion-ordered association
list). -/
structure Changeset where
  id : Nat
  created_at : String
  closed_at : Option String
  «open» : Bool
  user : String
  uid : Nat
  min_lat : Option Decimal
  max_lat : Option Decimal
  min_lon : Option Decimal
  max_lon : Option Decimal
  tags : List (String × String)
deriving Repr, DecidableEq

/-- Optional `f64` attribute read `.get(k).map(|s| s.parse().unwrap())`:
absent gives `none`, present-but-unparsable is a panic. -/
def optF64 (attrs : List (String × String)) (k : String) : Except String (Option Decimal) :=
  match lastAttr attrs k with
  | none => .ok none
  | some s =>
    match parseF64? s with
    | none => .error ("Unable to parse changeset " ++ k)
    | some q => .ok (some q)

/-- `Changeset::new_from_element` (`changesets.rs:33-159`): reads the
mandatory `id` (returning `none` before anything else when it is not in the
wanted list), `created_at` and `open` attributes and the optional
`closed_at`/`user`/`uid`/bounding-box attributes, then folds over the child
elements.  For each `<tag>` child the source scans
`element.attributes()` — the attributes of the *changeset element itself* —
for `k`/`v` (`changesets.rs:122`), not the attributes of the tag child, so
the inserted key/value pair comes from the changeset element (and is
`("", "")` whenever the changeset element carries no `k`/`v` attributes). -/
def Changeset.new_from_element (e : XmlElement) (changeset_list : List Nat) :
    Except String (Option Changeset) := do
  let attrs := e.attrs
  let id ← requireNat attrs "id" "Unable to parse changeset id"
  if ¬ changeset_list.contains id then
    .ok none
  else do
    let created_at ←
      match lastAttr attrs "created_at" with
      | none => Except.error "Option::unwrap on None: created_at"
      | some s => Except.ok s
    let openFlag ←
      match lastAttr attrs "open" with
      | none => Except.error "Option::unwrap on None: open"
      | some s =>
        match parseBool? s with
        | none => Except.error "Unable to parse changeset open"
        | some b => Except.ok b
    let uid ←
      match parseU64? ((lastAttr attrs "uid").getD "0") with
      | none => Except.error "Unable to parse changeset uid"
      | some n => Except.ok n
    let min_lat ← optF64 attrs "min_lat"
    let max_lat ← optF64 attrs "max_lat"
    let min_lon ← optF64 attrs "min_lon"
    let max_lon ← optF64 attrs "max_lon"
    let base : Changeset :=
      { id := id
        created_at := created_at
        closed_at := lastAttr attrs "closed_at"
        «open» := openFlag
        user := (lastAttr attrs "user").getD "Unknown"
        uid := uid
        min_lat := min_lat
        max_lat := max_lat
        min_lon := min_lon
        max_lon := max_lon
        tags := [] }
    .ok (some (e.children.foldl
      (fun c child =>
        if child.name = "tag" then
          { c with tags := hmInsert c.tags (attrD attrs "k") (attrD attrs "v") }
        else c)
      base))

/-- The ids already collected, `changesets.iter().map(|c| c.id)`. -/
def parsedIds (acc : List Changeset) : List Nat :=
  acc.map (fun c => c.id)

/-- The loop-top termination test of `parse_changeset`
(`changesets.rs:191-197`): is the wanted set a subset of the parsed ids. -/
def allWantedParsed (wanted : List Nat) (acc : List Changeset) : Bool :=
  wanted.all (fun w => (parsedIds acc).contains w)

/-- The loop of `parse_changeset` over the remaining top-level elements: the
subset test runs at the top of every iteration, *before* the next read, so
once every wanted id has been yielded the function returns without examining
the rest of the stream.  A changeset whose id is not wanted returns `none`
from `Changeset::new_from_element` and is skipped; its `<tag>` children then
surface as top-level non-`changeset` elements in the source's event loop and
are skipped there, which the element-tree model folds into skipping the
whole element.  The `Err`-log-and-skip arm of the source
(`changesets.rs:211-216`) catches only raw-XML/filesystem errors, which are
not representable here; panics propagate. -/
def parse_changeset_loop (wanted : List Nat) :
    List Changeset → List XmlElement → Except String (List Changeset)
  | acc, es =>
    if allWantedParsed wanted acc then .ok acc
    else
      match es with
      | [] => .ok acc
      | e :: rest =>
        if e.name = "changeset" then
          match Changeset.new_from_element e wanted with
          | .error msg => .error msg
          | .ok (some c) => parse_changeset_loop wanted (acc ++ [c]) rest
          | .ok none => parse_changeset_loop wanted acc rest
        else parse_changeset_loop wanted acc rest

/-- `parse_changeset` (`changesets.rs:171-228`): run the loop with an empty
accumulator over the top-level elements of the changeset archive. -/
def parse_changeset (wanted : List Nat) (es : List XmlElement) : Except String (List Changeset) :=
  parse_changeset_loop wanted [] es

/-- `find_changesets_in_cache` (`osm_data.rs:1031-1042`): the redundant
any-then-find of the source. -/
def find_changesets_in_cache (changesets : List Changeset) (changeset_id : Nat) :
    Option Changeset :=
  if changesets.any (fun c => c.id = changeset_id) then
    changesets.find? (fun c => c.id = changeset_id)
  else none

/-- `Vec::join(sep)`: the empty list joins to the empty string, otherwise
the first item followed by `sep ++ item` for each further item. -/
def joinWith (sep : String) : List String → String
  | [] => ""
  | a :: as => as.foldl (fun r x => r ++ sep ++ x) a

/-- The note body built at `osm_data.rs:992-1012`: the tag lines (one
`key: value` line per tag whose key is not blank after trimming, in the
map's iteration order) joined with newlines; when that joined string is
empty the body is just the `Legacy Changeset ID` line, otherwise that line,
a newline, and the joined tag lines. -/
def noteBody (c : Changeset) : String :=
  let note := joinWith "\n"
    ((c.tags.filter (fun kv => ¬ strIsEmpty (trimStr kv.fst))).map
      (fun kv => kv.fst ++ ": " ++ kv.snd))
  if strIsEmpty note then "Legacy Changeset ID: " ++ toString c.id
  else "Legacy Changeset ID: " ++ toString c.id ++ "\n" ++ note

/-- The git author signature built for a changeset's commit. -/
structure Author where
  name : String
  email : String
  time : Int
  offset : Int
deriving Repr, DecidableEq

/-- One emitted commit together with its attached note, as observed through
the `commit(...)` and `repository.note(...)` calls. -/
structure CommitRec where
  changesetId : Nat
  message : String
  author : Author
  added : List String
  removed : List String
  note : String
deriving Repr, DecidableEq

/-- The time string handed to the ISO-8601 parser:
`closed_at.clone().unwrap_or(created_at)`. -/
def timeString (c : Changeset) : String :=
  c.closed_at.getD c.created_at

/-- The commit-emission body for one resolved changeset
(`osm_data.rs:926-1014`), parameterized by the external `time`-crate parser
`parseTime` (ISO-8601 string to Unix seconds).  A failed time parse is
propagated by `?` at `osm_data.rs:940`.  The added/removed path lists are
the file names of the changeset's created-or-modified and deleted vectors
(the source joins the repository folder onto each name and the commit helper
strips it back off; the model keeps the bare file names). -/
def commitFor (parseTime : String → Option Int) (st : ReplayState) (c : Changeset) :
    Except String CommitRec :=
  let comment := ((hmLookup c.tags "comment").map trimStr).getD ""
  match parseTime (timeString c) with
  | none => .error "TimeParseError"
  | some t =>
    .ok { changesetId := c.id
          message := comment
          author := { name := c.user, email := c.user ++ "@osm", time := t, offset := 0 }
          added := ((natMapLookup st.addmod c.id).getD []).map objFileName
          removed := ((natMapLookup st.del c.id).getD []).map objFileName
          note := noteBody c }

/-- The commit loop of `convert_objects_to_git` (`osm_data.rs:917-1016`)
over the changeset-id list: an unresolved id is logged and skipped; a
resolved id produces one commit (and note).  Commits made before a failure
are durable git state, so the result is the list of commits actually
emitted, paired with the error that aborted the loop, if any. -/
def commitLoop (parseTime : String → Option Int) (changesets : List Changeset)
    (st : ReplayState) : List Nat → List CommitRec × Option String
  | [] => ([], none)
  | cid :: rest =>
    match find_changesets_in_cache changesets cid with
    | none => commitLoop parseTime changesets st rest
    | some c =>
      match commitFor parseTime st c with
      | .error e => ([], some e)
      | .ok r =>
        let tail := commitLoop parseTime changesets st rest
        (r :: tail.fst, tail.snd)

/-- The whole commit phase: run the loop over `changeset_list`. -/
def convertCommitPhase (parseTime : String → Option Int) (changesets : List Changeset)
    (st : ReplayState) : List CommitRec × Option String :=
  commitLoop parseTime changesets st (changesetList st)

/-- `convert_objects_to_git` (`osm_data.rs:472-1019`): the parse-and-apply
phase over the groupings of one change file, then the commit phase.  The
changeset metadata is parameterized by the already-resolved `changesets`
list (in the source it is obtained by scanning the cache directory for the
newest `changesets-<N>.osm.zst` archive and running `parse_changeset` on it
with `changeset_list` as the wanted set — filesystem and decompression glue
outside this model).  An `Except.error` is a panic or a propagated `?`
before any commit is made; a commit-phase failure is reported in the
`Option String` component with the commits already made preserved. -/
def convert_objects_to_git (parseTime : String → Option Int) (changesets : List Changeset)
    (groups : List ChangeGroup) :
    Except String (ReplayState × List CommitRec × Option String) :=
  match processFile groups with
  | .error e => .error e
  | .ok st =>
    let r := convertCommitPhase parseTime changesets st
    .ok (st, r.fst, r.snd)

/-- One entry of the in-memory `gix::objs::Tree` being built by `commit`. -/
structure TreeEntry where
  filename : String
  oid : Nat
deriving Repr, DecidableEq

/-- The `strip_prefix` computation of `git/mod.rs:129-133` and `153-157` on
the path layouts in use (`workdir ++ "/" ++ name`): strip the working
directory (and the separator) when it is a prefix, otherwise keep the path
as given. -/
def relativize (workdir p : String) : String :=
  if (workdir.data ++ ['/']).isPrefixOf p.data then ⟨p.data.drop (workdir.data.length + 1)⟩
  else if workdir.data.isPrefixOf p.data then ⟨p.data.drop workdir.data.length⟩
  else p

/-- `commit` (`git/mod.rs:98-188`), restricted to its tree construction: the
tree starts from the `HEAD` commit's tree; every added-or-changed path that
exists on disk (`disk` maps a path to its blob) is *pushed* onto the entry
list (`tree.entries.push(entry)` at `git/mod.rs:142`) without touching any
existing entry of the same filename, paths missing on disk being skipped
with a warning; afterwards, for every removed path all entries whose
filename equals its relativized form are dropped
(`tree.entries.retain(...)` at `git/mod.rs:159`). -/
def commit (tree : List TreeEntry) (disk : String → Option Nat) (workdir : String)
    (added_or_changed_files removed_files : List String) : List TreeEntry :=
  let afterAdd := added_or_changed_files.foldl
    (fun t p =>
      match disk p with
      | some blob => t ++ [{ filename := relativize workdir p, oid := blob }]
      | none => t)
    tree
  removed_files.foldl
    (fun t p => t.filter (fun entry => entry.filename ≠ relativize workdir p))
    afterAdd

/-- The amended description of the note body: the `Legacy Changeset ID` first
line with one `key: value` line appended per tag whose key is not blank, in
the tag map's iteration order (insertion order in this model — the source's
`HashMap` iteration order is unspecified, and in particular not sorted). -/
def noteBodyUnsorted (c : Changeset) : String :=
  ((c.tags.filter (fun kv => ¬ strIsEmpty (trimStr kv.fst))).map
      (fun kv => kv.fst ++ ": " ++ kv.snd)).foldl
    (fun acc line => acc ++ "\n" ++ line)
    ("Legacy Changeset ID: " ++ toString c.id)

/-! ### Concrete inputs used by the counterexamples and witnesses -/

/-- `<node id="1" changeset="100" lat="10.0" lon="20.0" version="1"/>`. -/
def n1el : XmlElement :=
  ⟨"node", [("id", "1"), ("changeset", "100"), ("lat", "10.0"), ("lon", "20.0"),
    ("version", "1")], []⟩

/-- The same node id in the same changeset, at version 2 (a later revision of
object 1, as a real `<delete>` entry carries). -/
def n2el : XmlElement :=
  ⟨"node", [("id", "1"), ("changeset", "100"), ("lat", "10.0"), ("lon", "20.0"),
    ("version", "2")], []⟩

/-- `<node id="2" changeset="50" lat="1" lon="2" version="1"/>`. -/
def n50el : XmlElement :=
  ⟨"node", [("id", "2"), ("changeset", "50"), ("lat", "1"), ("lon", "2"),
    ("version", "1")], []⟩

/-- A delete entry without the `lat`/`lon` attributes, exactly the shape of
the spec's S2 scenario (`<delete><node id="1" changeset="100" version="2"/>
</delete>`). -/
def badNodeEl : XmlElement :=
  ⟨"node", [("id", "1"), ("changeset", "100"), ("version", "2")], []⟩

/-- Changeset 100 metadata (the S1 scenario changeset). -/
def cs100 : Changeset :=
  { id := 100, created_at := "2020-01-01T00:00:00Z", closed_at := none, «open» := true,
    user := "alice", uid := 7, min_lat := none, max_lat := none, min_lon := none,
    max_lon := none, tags := [("comment", "first")] }

/-- Changeset 50 metadata. -/
def cs50 : Changeset :=
  { cs100 with id := 50, user := "bob" }

/-- A changeset whose tags were inserted in the order `b` then `a`. -/
def csBA : Changeset :=
  { cs100 with id := 7, tags := [("b", "2"), ("a", "1")] }

/-- A `<changeset>` element carrying every documented attribute and one
`<tag k="comment" v="first"/>` child. -/
def csEl : XmlElement :=
  ⟨"changeset",
    [("id", "1"), ("created_at", "2020-01-01T00:00:00Z"),
     ("closed_at", "2020-01-01T01:00:00Z"), ("open", "false"), ("user", "alice"),
     ("uid", "7"), ("min_lat", "-1.5"), ("max_lat", "2.25"), ("min_lon", "3"),
     ("max_lon", "4")],
    [⟨"tag", [("k", "comment"), ("v", "first")], []⟩]⟩

/-- A time parser that resolves every string to the S1 scenario's Unix time. -/
def pt0 : String → Option Int := fun _ => some 1577836800

/-- Change file: create object 1 in changeset 100, then delete the same
object id in the same changeset at the next version. -/
def exCreateDelete : List ChangeGroup :=
  [⟨.create, [n1el]⟩, ⟨.delete, [n2el]⟩]

/-- Change file: create object 1 in changeset 100, then delete object 2 in
changeset 50. -/
def exCreateDelete2 : List ChangeGroup :=
  [⟨.create, [n1el]⟩, ⟨.delete, [n50el]⟩]

/-- The parsed form of `n1el`. -/
def nodeA : Node :=
  { id := 1, changeset := 100, file_generator := none, file_version := "0.1.0",
    legacy_object_version := some "1", lat := ⟨10, 0⟩, lon := ⟨20, 0⟩, tags := [] }

/-- A replay state in which changeset 100 created-or-modified object 1 and
nothing was deleted. -/
def stA : ReplayState :=
  ⟨[(1, OSMObject.Node nodeA)], [(100, [OSMObject.Node nodeA])], []⟩

/-! ### Helper lemmas about the association-list maps -/

theorem storeLookup_insert_self (m : List (Nat × OSMObject)) (k : Nat) (v : OSMObject) :
    storeLookup (storeInsert m k v) k = some v := by
  induction m with
  | nil => simp [storeInsert, storeLookup]
  | cons hd tl ih =>
    obtain ⟨k', v'⟩ := hd
    by_cases h : k = k'
    · simp [storeInsert, storeLookup, h]
    · by_cases h2 : k < k'
      · simp [storeInsert, storeLookup, h, h2]
      · simp [storeInsert, storeLookup, h, h2, ih]

theorem storeLookup_insert_ne (m : List (Nat × OSMObject)) (k : Nat) (v : OSMObject)
    (j : Nat) (hj : j ≠ k) : storeLookup (storeInsert m k v) j = storeLookup m j := by
  induction m with
  | nil => simp [storeInsert, storeLookup, hj]
  | cons hd tl ih =>
    obtain ⟨k', v'⟩ := hd
    by_cases h : k = k'
    · subst h
      simp [storeInsert, storeLookup, hj]
    · by_cases h2 : k < k'
      · simp [storeInsert, storeLookup, h, h2, hj]
      · by_cases h3 : j = k'
        · simp [storeInsert, storeLookup, h, h2, h3]
        · simp [storeInsert, storeLookup, h, h2, h3, ih]

theorem natMapLookup_adjust (m : List (Nat × List OSMObject)) (k : Nat)
    (f : List OSMObject → List OSMObject) :
    natMapLookup (natMapAdjust m k f) k = (natMapLookup m k).map f := by
  induction m with
  | nil => simp [natMapAdjust, natMapLookup]
  | cons hd tl ih =>
    obtain ⟨k', l⟩ := hd
    by_cases h : k = k'
    · simp [natMapAdjust, natMapLookup, h]
    · simp [natMapAdjust, natMapLookup, h, ih]

theorem natMapAdjust_id_on (m : List (Nat × List OSMObject)) (k : Nat)
    (f : List OSMObject → List OSMObject)
    (hf : ∀ l, natMapLookup m k = some l → f l = l) : natMapAdjust m k f = m := by
  induction m with
  | nil => simp [natMapAdjust]
  | cons hd tl ih =>
    obtain ⟨k', l⟩ := hd
    by_cases h : k = k'
    · have : f l = l := hf l (by simp [natMapLookup, h])
      simp [natMapAdjust, h, this]
    · have : ∀ l', natMapLookup tl k = some l' → f l' = l' := by
        intro l' hl'
        exact hf l' (by simp [natMapLookup, h, hl'])
      simp [natMapAdjust, h, ih this]

theorem removeFirst_of_not_mem (l : List OSMObject) (a : OSMObject) (h : a ∉ l) :
    removeFirst l a = l := by
  induction l with
  | nil => simp [removeFirst]
  | cons x rest ih =>
    have hx : ¬ x = a := by
      intro hxa
      exact h (by simp [hxa])
    have hrest : a ∉ rest := fun hm => h (List.mem_cons_of_mem _ hm)
    simp [removeFirst, hx, ih hrest]

theorem mem_keys_insertPush (m : List (Nat × List OSMObject)) (k : Nat) (v : OSMObject)
    (x : Nat) (hx : x ∈ natMapKeys (natMapInsertPush m k v)) :
    x = k ∨ x ∈ natMapKeys m := by
  induction m with
  | nil =>
    simp [natMapInsertPush, natMapKeys] at hx
    exact Or.inl hx
  | cons hd tl ih =>
    obtain ⟨k', l⟩ := hd
    by_cases h : k = k'
    · subst h
      simp [natMapInsertPush, natMapKeys] at hx ⊢
      tauto
    · by_cases h2 : k < k'
      · simp [natMapInsertPush, natMapKeys, h, h2] at hx ⊢
        tauto
      · simp [natMapInsertPush, natMapKeys, h, h2] at hx ⊢
        rcases hx with hx | hx
        · tauto
        · rcases ih (by simpa [natMapKeys] using hx) with h3 | h3
          · tauto
          · simp [natMapKeys] at h3
            tauto

theorem pairwise_keys_insertPush (m : List (Nat × List OSMObject)) (k : Nat) (v : OSMObject)
    (hm : List.Pairwise (· < ·) (natMapKeys m)) :
    List.Pairwise (· < ·) (natMapKeys (natMapInsertPush m k v)) := by
  induction m with
  | nil => simp [natMapInsertPush, natMapKeys]
  | cons hd tl ih =>
    obtain ⟨k', l⟩ := hd
    simp only [natMapKeys, List.map_cons, List.pairwise_cons] at hm
    obtain ⟨hk', htl⟩ := hm
    by_cases h : k = k'
    · subst h
      simp only [natMapInsertPush, if_pos rfl, natMapKeys, List.map_cons]
      exact List.pairwise_cons.mpr ⟨hk', htl⟩
    · by_cases h2 : k < k'
      · simp only [natMapInsertPush, h, if_false, h2, if_true, natMapKeys, List.map_cons,
          List.pairwise_cons]
        refine ⟨?_, ?_, htl⟩
        · intro b hb
          rcases List.mem_cons.mp hb with hb | hb
          · exact hb ▸ h2
          · exact lt_trans h2 (hk' b hb)
        · intro b hb
          exact hk' b hb
      · have h3 : k' < k := by omega
        simp only [natMapInsertPush, h, if_false, h2, natMapKeys, List.map_cons,
          List.pairwise_cons]
        refine ⟨?_, ih htl⟩
        intro b hb
        rcases mem_keys_insertPush tl k v b hb with hb' | hb'
        · exact hb' ▸ h3
        · exact hk' b hb'

theorem keys_adjust (m : List (Nat × List OSMObject)) (k : Nat)
    (f : List OSMObject → List OSMObject) :
    natMapKeys (natMapAdjust m k f) = natMapKeys m := by
  induction m with
  | nil => simp [natMapAdjust]
  | cons hd tl ih =>
    obtain ⟨k', l⟩ := hd
    by_cases h : k = k'
    · simp [natMapAdjust, natMapKeys, h]
    · simp [natMapAdjust, natMapKeys, h]
      simpa [natMapKeys] using ih

theorem exceptBind_error {α β : Type} (e : String) (f : α → Except String β) :
    ((Except.error e : Except String α) >>= f) = Except.error e := rfl

theorem exceptBind_ok {α β : Type} (a : α) (f : α → Except String β) :
    ((Except.ok a : Except String α) >>= f) = f a := rfl

/-- Invariant: both per-changeset `BTreeMap`s have their keys in strictly
ascending order. -/
def KeysSorted (st : ReplayState) : Prop :=
  List.Pairwise (· < ·) (natMapKeys st.addmod) ∧ List.Pairwise (· < ·) (natMapKeys st.del)

theorem keysSorted_applyFor (a : Action) (st : ReplayState) (obj : OSMObject)
    (h : KeysSorted st) : KeysSorted (applyFor a st obj) := by
  obtain ⟨h1, h2⟩ := h
  cases a with
  | create => exact ⟨pairwise_keys_insertPush _ _ _ h1, h2⟩
  | modify => exact ⟨pairwise_keys_insertPush _ _ _ h1, h2⟩
  | delete =>
    refine ⟨?_, pairwise_keys_insertPush _ _ _ h2⟩
    simpa [applyFor, applyDelete, keys_adjust] using h1

theorem keysSorted_foldl (a : Action) (objs : List OSMObject) (st : ReplayState)
    (h : KeysSorted st) : KeysSorted (objs.foldl (applyFor a) st) := by
  induction objs generalizing st with
  | nil => exact h
  | cons o rest ih => exact ih _ (keysSorted_applyFor a st o h)

theorem keysSorted_processGroup (st st' : ReplayState) (g : ChangeGroup)
    (hrun : processGroup st g = .ok st') (h : KeysSorted st) : KeysSorted st' := by
  unfold processGroup at hrun
  cases hco : collectObjects g.children with
  | error e => simp [hco, exceptBind_error] at hrun
  | ok objs =>
    simp only [hco, exceptBind_ok] at hrun
    cases hrun
    exact keysSorted_foldl _ _ _ h

theorem keysSorted_processFile_from (groups : List ChangeGroup) (st st' : ReplayState)
    (hrun : groups.foldlM processGroup st = .ok st') (h : KeysSorted st) : KeysSorted st' := by
  induction groups generalizing st with
  | nil =>
    simp only [List.foldlM_nil] at hrun
    cases hrun
    exact h
  | cons g rest ih =>
    simp only [List.foldlM_cons] at hrun
    cases hg : processGroup st g with
    | error e => simp [hg, exceptBind_error] at hrun
    | ok st1 =>
      simp only [hg, exceptBind_ok] at hrun
      exact ih st1 hrun (keysSorted_processGroup st st1 g hg h)

theorem keysSorted_processFile (groups : List ChangeGroup) (st' : ReplayState)
    (hrun : processFile groups = .ok st') : KeysSorted st' :=
  keysSorted_processFile_from groups initState st' hrun (by constructor <;> simp [initState, natMapKeys])

/-! ### Helper lemmas about changeset resolution and the commit loop -/

theorem find_changesets_in_cache_id (changesets : List Changeset) (cid : Nat) (c : Changeset)
    (h : find_changesets_in_cache changesets cid = some c) : c.id = cid := by
  unfold find_changesets_in_cache at h
  by_cases hany : changesets.any (fun c => c.id = cid)
  · simp only [hany, if_true] at h
    have := List.find?_some h
    simpa using this
  · simp [hany] at h

theorem commitFor_ok_of_time (parseTime : String → Option Int) (st : ReplayState)
    (c : Changeset) (t : Int) (ht : parseTime (timeString c) = some t) :
    commitFor parseTime st c =
      .ok { changesetId := c.id
            message := ((hmLookup c.tags "comment").map trimStr).getD ""
            author := { name := c.user, email := c.user ++ "@osm", time := t, offset := 0 }
            added := ((natMapLookup st.addmod c.id).getD []).map objFileName
            removed := ((natMapLookup st.del c.id).getD []).map objFileName
            note := noteBody c } := by
  simp [commitFor, ht]

theorem commitLoop_spec (parseTime : String → Option Int) (changesets : List Changeset)
    (st : ReplayState) (cids : List Nat)
    (h : ∀ cid ∈ cids, ∀ c, find_changesets_in_cache changesets cid = some c →
      (parseTime (timeString c)).isSome) :
    (commitLoop parseTime changesets st cids).snd = none ∧
    (commitLoop parseTime changesets st cids).fst.map (fun r => r.changesetId) =
      cids.filter (fun cid => (find_changesets_in_cache changesets cid).isSome) := by
  induction cids with
  | nil => simp [commitLoop]
  | cons cid rest ih =>
    have hrest : ∀ cid ∈ rest, ∀ c, find_changesets_in_cache changesets cid = some c →
        (parseTime (timeString c)).isSome := by
      intro x hx c hc
      exact h x (List.mem_cons_of_mem _ hx) c hc
    obtain ⟨ih1, ih2⟩ := ih hrest
    cases hfind : find_changesets_in_cache changesets cid with
    | none => simp [commitLoop, hfind, ih1, ih2]
    | some c =>
      have hsome := h cid (List.mem_cons_self _ _) c hfind
      obtain ⟨t, ht⟩ := Option.isSome_iff_exists.mp hsome
      have hid := find_changesets_in_cache_id changesets cid c hfind
      simp [commitLoop, hfind, commitFor_ok_of_time parseTime st c t ht, ih1, ih2, hid]

theorem commitLoop_time_of_mem (parseTime : String → Option Int) (changesets : List Changeset)
    (st : ReplayState) (cids : List Nat) (r : CommitRec)
    (hr : r ∈ (commitLoop parseTime changesets st cids).fst) :
    ∃ c t, find_changesets_in_cache changesets r.changesetId = some c ∧
      parseTime (timeString c) = some t ∧ r.author.time = t := by
  induction cids with
  | nil => simp [commitLoop] at hr
  | cons cid rest ih =>
    cases hfind : find_changesets_in_cache changesets cid with
    | none =>
      simp only [commitLoop, hfind] at hr
      exact ih hr
    | some c =>
      cases hcf : commitFor parseTime st c with
      | error e => simp [commitLoop, hfind, hcf] at hr
      | ok r0 =>
        simp only [commitLoop, hfind, hcf] at hr
        rcases List.mem_cons.mp hr with hr | hr
        · subst hr
          cases ht : parseTime (timeString c) with
          | none => simp [commitFor, ht] at hcf
          | some t =>
            have hr0 := commitFor_ok_of_time parseTime st c t ht
            rw [hcf] at hr0
            have hr0' := (Except.ok.injEq _ _).mp hr0
            refine ⟨c, t, ?_, ht, ?_⟩
            · rw [hr0']
              show find_changesets_in_cache changesets c.id = some c
              rw [find_changesets_in_cache_id changesets cid c hfind]
              exact hfind
            · rw [hr0']
        · exact ih hr

/-! ### Helper lemmas about string joining (for the note body) -/

theorem foldl_append_pre (as : List String) (pre acc s : String) :
    as.foldl (fun r x => r ++ s ++ x) (pre ++ acc) =
      pre ++ as.foldl (fun r x => r ++ s ++ x) acc := by
  induction as generalizing acc with
  | nil => rfl
  | cons x xs ih =>
    rw [List.foldl_cons, List.foldl_cons, String.append_assoc pre acc s,
      String.append_assoc pre (acc ++ s) x]
    exact ih (acc ++ s ++ x)

theorem le_length_foldl (as : List String) (acc s : String) :
    acc.length ≤ (as.foldl (fun r x => r ++ s ++ x) acc).length := by
  induction as generalizing acc with
  | nil => exact Nat.le_refl _
  | cons x xs ih =>
    rw [List.foldl_cons]
    calc acc.length ≤ (acc ++ s ++ x).length := by
          rw [String.length_append, String.length_append]
          omega
      _ ≤ _ := ih (acc ++ s ++ x)

theorem noteBody_eq_aux (hdr : String) (lines : List String)
    (h : ∀ x ∈ lines, 2 ≤ x.length) :
    (if strIsEmpty (joinWith "\n" lines) then hdr
     else hdr ++ "\n" ++ joinWith "\n" lines) =
      lines.foldl (fun acc line => acc ++ "\n" ++ line) hdr := by
  cases lines with
  | nil => simp [joinWith, strIsEmpty]
  | cons x xs =>
    have hxlen := h x (List.mem_cons_self _ _)
    have hlen : 2 ≤ (joinWith "\n" (x :: xs)).length :=
      le_trans hxlen (le_length_foldl xs x "\n")
    have hne : strIsEmpty (joinWith "\n" (x :: xs)) = false := by
      have hlen' : 2 ≤ (joinWith "\n" (x :: xs)).data.length := hlen
      cases hdata : (joinWith "\n" (x :: xs)).data with
      | nil => rw [hdata] at hlen'; simp at hlen'
      | cons a as => simp [strIsEmpty, hdata]
    rw [hne]
    simp only [Bool.false_eq_true, if_false, List.foldl_cons]
    show (hdr ++ "\n") ++ xs.foldl (fun r y => r ++ "\n" ++ y) x =
      xs.foldl (fun acc line => acc ++ "\n" ++ line) ((hdr ++ "\n") ++ x)
    rw [foldl_append_pre xs (hdr ++ "\n") x "\n"]

/-! ### Helper lemmas about the commit tree construction -/

theorem commit_add_fold (added : List String) (disk : String → Option Nat)
    (workdir : String) (t : List TreeEntry) :
    added.foldl
      (fun t p =>
        match disk p with
        | some blob => t ++ [{ filename := relativize workdir p, oid := blob }]
        | none => t)
      t =
    t ++ added.filterMap
      (fun p => (disk p).map (fun b => { filename := relativize workdir p, oid := b })) := by
  induction added generalizing t with
  | nil => simp
  | cons p rest ih =>
    cases hd : disk p with
    | none => simp [hd, ih]
    | some b => simp [hd, ih]

theorem mem_filter_fold (removed : List String) (workdir : String)
    (t : List TreeEntry) (e : TreeEntry) (he : e ∈ t)
    (hrem : ∀ r ∈ removed, relativize workdir r ≠ e.filename) :
    e ∈ removed.foldl
      (fun t p => t.filter (fun entry => entry.filename ≠ relativize workdir p)) t := by
  induction removed generalizing t with
  | nil => exact he
  | cons r rest ih =>
    rw [List.foldl_cons]
    refine ih _ (List.mem_filter.mpr ⟨he, ?_⟩) ?_
    · have hne := hrem r (List.mem_cons_self _ _)
      exact decide_eq_true (fun h : e.filename = relativize workdir r => hne (Eq.symm h))
    · intro r' hr'
      exact hrem r' (List.mem_cons_of_mem _ hr')

/-! ### Claim theorems -/

/-- C1 (counterexample): in one change file, object id 1 is created in
changeset 100 and then deleted in the same changeset at version 2.  The
claim says the Delete wins and the entry is removed from the
created-or-modified list, so the commit lists the path only as removed; in
fact the removal compares whole objects and version 1 ≠ version 2, so the
entry stays, and the changeset's commit (both of them — see C2) lists
`1.yaml` as added *and* as removed. -/
theorem delete_keeps_nonequal_entry_with_same_id :
    (processFile exCreateDelete).map
      (fun st => ((natMapLookup st.addmod 100).getD []).map objFileName) = .ok ["1.yaml"] ∧
    (processFile exCreateDelete).map
      (fun st => ((natMapLookup st.del 100).getD []).map objFileName) = .ok ["1.yaml"] ∧
    (convert_objects_to_git pt0 [cs100] exCreateDelete).map
      (fun x => x.2.1.map (fun r => (r.added, r.removed))) =
      .ok [(["1.yaml"], ["1.yaml"]), (["1.yaml"], ["1.yaml"])] :=
  ⟨rfl, rfl, rfl⟩

/-- C1 (amended): the delete branch removes from the changeset's
created-or-modified vector only the first entry *structurally equal* to the
deleted object (all fields, via the derived `PartialEq`); when no equal
entry exists — in particular when an entry merely shares the object id —
the created-or-modified map is left unchanged. -/
theorem applyDelete_removes_only_structurally_equal (st : ReplayState) (obj : OSMObject) :
    ((∀ l, natMapLookup st.addmod (objChangeset obj) = some l → obj ∉ l) →
      (applyDelete st obj).addmod = st.addmod) ∧
    (∀ l, natMapLookup st.addmod (objChangeset obj) = some l →
      natMapLookup (applyDelete st obj).addmod (objChangeset obj) =
        some (removeFirst l obj)) := by
  constructor
  · intro h
    show natMapAdjust st.addmod (objChangeset obj) (fun l => removeFirst l obj) = st.addmod
    refine natMapAdjust_id_on _ _ _ ?_
    intro l hl
    exact removeFirst_of_not_mem l obj (h l hl)
  · intro l hl
    show natMapLookup (natMapAdjust st.addmod (objChangeset obj) (fun l => removeFirst l obj))
      (objChangeset obj) = some (removeFirst l obj)
    rw [natMapLookup_adjust, hl]
    rfl

/-- C1 (witness): deleting a version-2 copy of object 1 from a state whose
changeset-100 vector holds only the version-1 object leaves the vector
unchanged. -/
theorem applyDelete_removes_only_structurally_equal_witness :
    (applyDelete stA (OSMObject.Node { nodeA with legacy_object_version := some "2" })).addmod
      = stA.addmod :=
  (applyDelete_removes_only_structurally_equal stA
    (OSMObject.Node { nodeA with legacy_object_version := some "2" })).1
    (by decide)

/-- C5: a `<node>` lacking the mandatory `lat` attribute does not produce a
recoverable per-object parse error: the `unwrap` panics, aborting the whole
run, and in particular a well-formed sibling in the same grouping does not
produce a delta either.  (The claim — and the spec's S2 scenario, whose
delete entry is exactly `badNodeEl` — expects the object to be logged and
skipped with siblings proceeding.) -/
theorem node_missing_mandatory_attribute_panics :
    Node.new_from_element badNodeEl = .error "Option::unwrap on None: lat" ∧
    processFile [⟨Action.delete, [n50el, badNodeEl]⟩] =
      .error "Option::unwrap on None: lat" :=
  ⟨rfl, rfl⟩

/-- C8: the modify branch upserts the delta object: after the operation the
object's file holds exactly the delta object's serialization, whether or not
the file existed before (absent files are first created, then the delta is
written with truncation), other files are untouched, and the (discarded)
field-by-field merge indeed replaces every non-identity field — for matching
variants it equals the delta object with only the stored `id` kept. -/
theorem upsertModify_writes_delta_object (store : List (Nat × OSMObject)) (obj : OSMObject) :
    storeLookup (upsertModify store obj) (objId obj) = some obj ∧
    (∀ j, j ≠ objId obj → storeLookup (upsertModify store obj) j = storeLookup store j) ∧
    (∀ f o : Node, mergeModify (.Node f) (.Node o) = .Node { o with id := f.id }) ∧
    (∀ f o : Way, mergeModify (.Way f) (.Way o) = .Way { o with id := f.id }) ∧
    (∀ f o : Relation, mergeModify (.Relation f) (.Relation o) =
      .Relation { o with id := f.id }) := by
  refine ⟨?_, ?_, fun f o => rfl, fun f o => rfl, fun f o => rfl⟩
  · exact storeLookup_insert_self _ _ _
  · intro j hj
    by_cases hnone : (storeLookup store (objId obj)).isNone
    · show storeLookup
        (storeInsert (if (storeLookup store (objId obj)).isNone then
          storeInsert store (objId obj) obj else store) (objId obj) obj) j = storeLookup store j
      rw [if_pos hnone, storeLookup_insert_ne _ _ _ j hj, storeLookup_insert_ne _ _ _ j hj]
    · show storeLookup
        (storeInsert (if (storeLookup store (objId obj)).isNone then
          storeInsert store (objId obj) obj else store) (objId obj) obj) j = storeLookup store j
      rw [if_neg hnone, storeLookup_insert_ne _ _ _ j hj]

/-- C8 (witness): modifying object 1 into an empty store materializes its
file with the delta values and leaves the (absent) file of id 2 absent. -/
theorem upsertModify_writes_delta_object_witness :
    storeLookup (upsertModify [] (OSMObject.Node nodeA)) 1 = some (OSMObject.Node nodeA) ∧
    storeLookup (upsertModify [] (OSMObject.Node nodeA)) 2 = none := by
  constructor
  · exact (upsertModify_writes_delta_object [] (OSMObject.Node nodeA)).1
  · have h := (upsertModify_writes_delta_object [] (OSMObject.Node nodeA)).2.1 2 (by decide)
    simpa using h

/-- C9: `parse_changeset` with an empty wanted set returns the empty result
regardless of the stream (the loop-top subset test fires before any event is
read), and in general, whenever every wanted id is already among the parsed
ones, the loop returns immediately without examining the remaining
elements. -/
theorem parse_changeset_stops_when_wanted_exhausted :
    (∀ es, parse_changeset [] es = .ok []) ∧
    (∀ wanted acc es, allWantedParsed wanted acc = true →
      parse_changeset_loop wanted acc es = .ok acc) := by
  constructor
  · intro es
    rw [parse_changeset, parse_changeset_loop.eq_def]
    simp [allWantedParsed]
  · intro wanted acc es h
    rw [parse_changeset_loop.eq_def]
    simp [h]

/-- C9 (witness): once changeset 100 (the only wanted id) has been parsed,
the loop returns it without looking at the remaining element. -/
theorem parse_changeset_stops_witness :
    allWantedParsed [100] [cs100] = true ∧
    parse_changeset_loop [100] [cs100] [csEl] = .ok [cs100] :=
  ⟨by decide,
    parse_changeset_stops_when_wanted_exhausted.2 [100] [cs100] [csEl] (by decide)⟩

/-- C2 (counterexample): in `exCreateDelete` the object is created and
deleted in changeset 100, so 100 is a key of both maps and the chained
key list is `[100, 100]`: *two* commits are emitted for the one changeset.
In `exCreateDelete2` changeset 100 only creates and changeset 50 only
deletes, so the chained list is `[100, 50]` and the commits are not in
ascending changeset-id order. -/
theorem duplicate_and_unordered_commits :
    (convert_objects_to_git pt0 [cs100] exCreateDelete).map
      (fun x => x.2.1.map (fun r => r.changesetId)) = .ok [100, 100] ∧
    (convert_objects_to_git pt0 [cs100, cs50] exCreateDelete2).map
      (fun x => x.2.1.map (fun r => r.changesetId)) = .ok [100, 50] :=
  ⟨rfl, rfl⟩

/-- C2 (amended): one commit is emitted per *occurrence* of a changeset id in
`changeset_list` — the ascending keys of the created-or-modified map
followed by the ascending keys of the deleted map, an id present in both
maps occurring twice — restricted to the occurrences whose metadata
resolves (assuming every resolved changeset's time parses, since a parse
failure aborts the loop).  Each of the two key segments is ascending for
every state reachable from a change file, but the concatenation is not
sorted and not duplicate-free. -/
theorem commits_follow_key_list :
    (∀ pt chs st,
      (∀ cid ∈ changesetList st, ∀ c, find_changesets_in_cache chs cid = some c →
        (pt (timeString c)).isSome) →
      (convertCommitPhase pt chs st).snd = none ∧
      (convertCommitPhase pt chs st).fst.map (fun r => r.changesetId) =
        (changesetList st).filter (fun cid => (find_changesets_in_cache chs cid).isSome)) ∧
    (∀ groups st', processFile groups = .ok st' →
      List.Pairwise (· < ·) (natMapKeys st'.addmod) ∧
      List.Pairwise (· < ·) (natMapKeys st'.del)) := by
  constructor
  · intro pt chs st h
    exact commitLoop_spec pt chs st (changesetList st) h
  · intro groups st' h
    exact keysSorted_processFile groups st' h

/-- C2 (witness): on a state whose only key is 100 in the created-or-modified
map, exactly one commit is emitted, for changeset 100. -/
theorem commits_follow_key_list_witness :
    (convertCommitPhase pt0 [cs100] stA).snd = none ∧
    (convertCommitPhase pt0 [cs100] stA).fst.map (fun r => r.changesetId) = [100] := by
  have h := commits_follow_key_list.1 pt0 [cs100] stA
    (by intro cid hcid c hc; simp [pt0])
  exact ⟨h.1, by rw [h.2]; rfl⟩

/-- C3: parsing a wanted `<changeset>` element that carries every documented
attribute and a `<tag k="comment" v="first"/>` child yields the right
attribute fields, but the tags map holds `("", "")` instead of
`("comment", "first")`: the `<tag>` loop reads `k`/`v` from the changeset
element's own attributes (`element.attributes()` at `changesets.rs:122`),
not from the tag child's, so the claimed `k → v` entry is never produced and
the `comment` lookup fails. -/
theorem changeset_tags_read_from_parent_attributes :
    (Changeset.new_from_element csEl [1]).map (fun oc => oc.map (fun c => c.tags)) =
      .ok (some [("", "")]) ∧
    (Changeset.new_from_element csEl [1]).map
      (fun oc => oc.map (fun c => (c.id, c.created_at, c.closed_at, c.user, c.uid))) =
      .ok (some (1, "2020-01-01T00:00:00Z", some "2020-01-01T01:00:00Z", "alice", 7)) ∧
    (Changeset.new_from_element csEl [1]).map
      (fun oc => oc.map (fun c => hmLookup c.tags "comment")) = .ok (some none) :=
  ⟨rfl, rfl, rfl⟩

/-- C4 (counterexample): for a changeset whose tags were inserted in the
order `b` then `a`, the note body lists `b: 2` before `a: 1` — the tag lines
follow the map's iteration order, not the claimed ordered-key order (the
source keeps changeset tags in a `HashMap`, whose iteration order is
unspecified; sorted order is not guaranteed). -/
theorem note_lines_not_in_sorted_key_order :
    noteBody csBA = "Legacy Changeset ID: 7\nb: 2\na: 1" ∧
    noteBody csBA ≠ "Legacy Changeset ID: 7\na: 1\nb: 2" :=
  ⟨rfl, by decide⟩

/-- C4 (amended): the note body is exactly the `Legacy Changeset ID: <id>`
line with one `<key>: <value>` line appended per tag whose key is not blank,
in the tag map's *iteration* order (not sorted-key order); with no tags, or
only blank-keyed ones, the body is just the first line. -/
theorem noteBody_lines_in_iteration_order (c : Changeset) :
    noteBody c = noteBodyUnsorted c := by
  have h : ∀ x ∈ (c.tags.filter (fun kv => ¬ strIsEmpty (trimStr kv.fst))).map
      (fun kv => kv.fst ++ ": " ++ kv.snd), 2 ≤ x.length := by
    intro x hx
    obtain ⟨kv, _, hkv⟩ := List.mem_map.mp hx
    rw [← hkv, String.length_append, String.length_append]
    have h2 : (": ").length = 2 := rfl
    omega
  exact noteBody_eq_aux ("Legacy Changeset ID: " ++ toString c.id) _ h

/-- C6 (counterexample): with a time parser that rejects the changeset's
time string, no commit at all is emitted for changeset 100 — the error
aborts the commit phase instead of falling back to epoch 0. -/
theorem time_parse_failure_kills_commit :
    convertCommitPhase (fun _ => none) [cs100] stA = ([], some "TimeParseError") :=
  rfl

/-- C6 (amended): a time-parse failure is not recovered: `commitFor` returns
the error (propagated by `?` at `osm_data.rs:940`), the changeset's commit is
not produced, and every commit that *is* emitted carries an author time
obtained from a successful parse — there is no epoch-0 fallback. -/
theorem time_parse_error_propagates :
    (∀ pt st c, pt (timeString c) = none → commitFor pt st c = .error "TimeParseError") ∧
    (∀ pt chs st r, r ∈ (convertCommitPhase pt chs st).fst →
      ∃ c t, find_changesets_in_cache chs r.changesetId = some c ∧
        pt (timeString c) = some t ∧ r.author.time = t) := by
  constructor
  · intro pt st c h
    simp [commitFor, h]
  · intro pt chs st r hr
    exact commitLoop_time_of_mem pt chs st (changesetList st) r hr

/-- C6 (witness): the first conjunct applied at a concrete failing parser. -/
theorem time_parse_error_propagates_witness :
    commitFor (fun _ => none) stA cs100 = .error "TimeParseError" :=
  time_parse_error_propagates.1 (fun _ => none) stA cs100 rfl

/-- C7: for every changeset whose time string (closed_at if present, else
created_at — that is `timeString`) parses to `t`, the emitted commit's
author name is the changeset's user, the author email is the user followed
by `@osm`, and the author time is `t` at UTC offset 0. -/
theorem author_identity_from_changeset (pt : String → Option Int) (st : ReplayState)
    (c : Changeset) (t : Int) (ht : pt (timeString c) = some t) :
    ∃ r, commitFor pt st c = .ok r ∧
      r.author = { name := c.user, email := c.user ++ "@osm", time := t, offset := 0 } :=
  ⟨_, commitFor_ok_of_time pt st c t ht, rfl⟩

/-- C7 (witness): changeset 100 (user alice, created_at parsing to
1577836800) produces an author `alice <alice@osm>` at Unix 1577836800, UTC. -/
theorem author_identity_from_changeset_witness :
    ∃ r, commitFor pt0 stA cs100 = .ok r ∧
      r.author = { name := "alice", email := "alice@osm", time := 1577836800, offset := 0 } :=
  author_identity_from_changeset pt0 stA cs100 1577836800 rfl

/-- C10: the tree built by `commit` *appends* an entry for every
added-or-changed path present on disk, never replacing an existing entry of
the same filename (so an add over an already-tracked filename yields two
entries with that filename), and an entry of the `HEAD` tree disappears only
when some removed path relativizes to its filename. -/
theorem commit_appends_and_removes_only_listed :
    (∀ tree disk workdir added,
      commit tree disk workdir added [] =
        tree ++ added.filterMap
          (fun p => (disk p).map
            (fun b => { filename := relativize workdir p, oid := b }))) ∧
    (∀ tree disk workdir added removed (e : TreeEntry), e ∈ tree →
      (∀ r ∈ removed, relativize workdir r ≠ e.filename) →
      e ∈ commit tree disk workdir added removed) := by
  constructor
  · intro tree disk workdir added
    exact commit_add_fold added disk workdir tree
  · intro tree disk workdir added removed e he hrem
    have he' : e ∈ added.foldl
        (fun t p =>
          match disk p with
          | some blob => t ++ [{ filename := relativize workdir p, oid := blob }]
          | none => t)
        tree := by
      rw [commit_add_fold]
      exact List.mem_append_left _ he
    exact mem_filter_fold removed workdir _ e he' hrem

/-- C10 (witness): adding `wd/1.yaml` over a HEAD tree that already tracks
`1.yaml` yields two entries named `1.yaml`; an entry survives a commit whose
removed list names a different path. -/
theorem commit_appends_witness :
    commit [{ filename := "1.yaml", oid := 1 }]
        (fun p => if p = "wd/1.yaml" then some 2 else none) "wd" ["wd/1.yaml"] [] =
      [{ filename := "1.yaml", oid := 1 }, { filename := "1.yaml", oid := 2 }] ∧
    { filename := "1.yaml", oid := 1 } ∈
      commit [{ filename := "1.yaml", oid := 1 }] (fun _ => none) "wd" []
        ["wd/other.yaml"] := by
  constructor
  · rw [commit_appends_and_removes_only_listed.1 [{ filename := "1.yaml", oid := 1 }]
      (fun p => if p = "wd/1.yaml" then some 2 else none) "wd" ["wd/1.yaml"]]
    rfl
  · exact commit_appends_and_removes_only_listed.2
      [{ filename := "1.yaml", oid := 1 }] (fun _ => none) "wd" [] ["wd/other.yaml"]
      { filename := "1.yaml", oid := 1 } (by simp) (by decide)

end OsmGit
